import Mathlib

/-!
Shallow embedding of the recipe_app ingestion-and-quota subsystem
(`src/app.py`, `src/recipe.py`) together with proofs of its specified
properties.

Instants are modelled as whole minutes (an `Int`), read in the fixed
timezone JST; a calendar date is the floor of the minute count by 1440,
matching Python's `datetime.date()` on a JST datetime.  Database rows
are modelled as explicit record values with the per-actor slices of the
`recipes`, `user_recipes` and `user_tokens` tables carried in an
`AppState`.  Network calls are modelled as explicit function arguments.
-/

namespace RecipeApp

/-! ### Quota manager constants (`app.py` lines 64-66) -/

def MAX_TOKENS : Int := 1000

def DAILY_REFILL : Int := 1000

def REFILL_HOUR_JST : Int := 4

/-- Minutes in one day. -/
def minutesPerDay : Int := 1440

/-- The calendar date (as a day count) of a JST instant given in minutes:
Python's `datetime.date()` is the floor of the instant by one day. -/
def dateOf (m : Int) : Int := Int.fdiv m minutesPerDay

/-- `most_recent_refill_boundary` (`app.py` lines 151-155): today's
04:00 JST, or yesterday's if `now` is before today's. -/
def mostRecentRefillBoundary (now : Int) : Int :=
  let boundary := dateOf now * minutesPerDay + REFILL_HOUR_JST * 60
  if now < boundary then boundary - minutesPerDay else boundary

/-- A row of the `user_tokens` table for one user. -/
structure QuotaRow where
  tokens : Int
  lastRefillAt : Int
deriving DecidableEq, Repr

/-- What `ensure_user_tokens` leaves behind: the returned balance, the
row now stored for the user, and whether a write was issued. -/
structure EnsureResult where
  tokens : Int
  row : QuotaRow
  wrote : Bool
deriving DecidableEq, Repr

/-- `ensure_user_tokens` (`app.py` lines 161-198).  `row?` is the stored
`user_tokens` row for the user, `now` the current JST instant. -/
def ensureUserTokens (row? : Option QuotaRow) (now : Int) : EnsureResult :=
  let currentBoundary := mostRecentRefillBoundary now
  match row? with
  | none => ⟨MAX_TOKENS, ⟨MAX_TOKENS, currentBoundary⟩, true⟩
  | some row =>
    let lastRefill :=
      if currentBoundary < row.lastRefillAt then currentBoundary else row.lastRefillAt
    let deltaDays := dateOf currentBoundary - dateOf lastRefill
    if 0 < deltaDays then
      let tokens := min MAX_TOKENS (row.tokens + deltaDays * DAILY_REFILL)
      ⟨tokens, ⟨tokens, currentBoundary⟩, true⟩
    else
      ⟨row.tokens, row, false⟩

/-! ### Per-actor application state -/

/-- The slice of the database an ingestion call can touch for one user:
the stored recipe ids, and this user's ownership rows and quota row. -/
structure AppState where
  quota : Option QuotaRow
  recipes : List String
  owned : List String
deriving DecidableEq, Repr

/-- `INSERT OR REPLACE INTO recipes`: as a set of ids this keeps the
existing entry in place and appends a fresh id. -/
def upsertRecipe (recipes : List String) (rid : String) : List String :=
  if rid ∈ recipes then recipes else recipes ++ [rid]

/-- `INSERT OR IGNORE INTO user_recipes`: idempotent ownership insert. -/
def addOwnership (owned : List String) (rid : String) : List String :=
  if rid ∈ owned then owned else owned ++ [rid]

/-! ### Category ingestion (`add_category`, `app.py` lines 326-411) -/

/-- Running state of the `add_category` loop: local counters and the
local `tokens` variable, plus the table slices it mutates. -/
structure LoopResult where
  added : Nat
  skipped : Nat
  tokens : Int
  recipes : List String
  owned : List String
deriving DecidableEq, Repr

/-- The per-item loop of `add_category` (`app.py` lines 362-401).  Each
payload item is reduced to its `recipeId` after `normalize_recipe`
(`none` when the field was absent); `ownedIds` is the snapshot of the
user's ownership rows read before the loop. -/
def addCategoryGo (ownedIds : List String) :
    List (Option String) → Int → List String → List String → Nat → Nat → LoopResult
  | [], tokens, recipes, owned, added, skipped => ⟨added, skipped, tokens, recipes, owned⟩
  | item :: rest, tokens, recipes, owned, added, skipped =>
    match item with
    | none => addCategoryGo ownedIds rest tokens recipes owned added skipped
    | some rid =>
      if rid ∈ ownedIds then
        addCategoryGo ownedIds rest tokens recipes owned added (skipped + 1)
      else if tokens ≤ 0 then
        ⟨added, skipped, tokens, recipes, owned⟩
      else
        addCategoryGo ownedIds rest (tokens - 1) (upsertRecipe recipes rid)
          (addOwnership owned rid) (added + 1) skipped

/-- What an `add_category` call leaves behind: the reported counts and
the state after `set_user_tokens` persisted the final balance. -/
structure CategoryOutcome where
  added : Nat
  skipped : Nat
  state : AppState
deriving DecidableEq, Repr

/-- `add_category` (`app.py` lines 326-411) after a successful ranking
fetch: `items` are the normalized payload items reduced to their ids. -/
def addCategory (st : AppState) (now : Int) (items : List (Option String)) :
    CategoryOutcome :=
  let er := ensureUserTokens st.quota now
  let res := addCategoryGo st.owned items er.tokens st.recipes st.owned 0 0
  ⟨res.added, res.skipped,
    ⟨some ⟨res.tokens, er.row.lastRefillAt⟩, res.recipes, res.owned⟩⟩

/-! ### Single-id ingestion (`add_recipe`, `app.py` lines 549-645) -/

/-- Python truthiness of a string: nonempty. -/
def pyTruthy (s : String) : Bool := !s.toList.isEmpty

/-- Python `str.strip()`: drop leading and trailing whitespace. -/
def pyStrip (s : String) : String :=
  String.mk (((s.toList.dropWhile Char.isWhitespace).reverse.dropWhile
    Char.isWhitespace).reverse)

/-- Python `str.lower()`. -/
def pyLower (s : String) : String := String.mk (s.toList.map Char.toLower)

/-- The Unicode scalar ranges Python's `str.isdigit` accepts: the
characters with `Numeric_Type` Digit or Decimal, per the CPython 3.11
Unicode tables.  Beyond the ASCII digits this includes, for example,
superscripts (`'²'`) and fullwidth digits (`'１'`). -/
def pyDigitRanges : List (Nat × Nat) := [
  (0x30, 0x39), (0xB2, 0xB3), (0xB9, 0xB9), (0x660, 0x669),
  (0x6F0, 0x6F9), (0x7C0, 0x7C9), (0x966, 0x96F), (0x9E6, 0x9EF),
  (0xA66, 0xA6F), (0xAE6, 0xAEF), (0xB66, 0xB6F), (0xBE6, 0xBEF),
  (0xC66, 0xC6F), (0xCE6, 0xCEF), (0xD66, 0xD6F), (0xDE6, 0xDEF),
  (0xE50, 0xE59), (0xED0, 0xED9), (0xF20, 0xF29), (0x1040, 0x1049),
  (0x1090, 0x1099), (0x1369, 0x1371), (0x17E0, 0x17E9), (0x1810, 0x1819),
  (0x1946, 0x194F), (0x19D0, 0x19DA), (0x1A80, 0x1A89), (0x1A90, 0x1A99),
  (0x1B50, 0x1B59), (0x1BB0, 0x1BB9), (0x1C40, 0x1C49), (0x1C50, 0x1C59),
  (0x2070, 0x2070), (0x2074, 0x2079), (0x2080, 0x2089), (0x2460, 0x2468),
  (0x2474, 0x247C), (0x2488, 0x2490), (0x24EA, 0x24EA), (0x24F5, 0x24FD),
  (0x24FF, 0x24FF), (0x2776, 0x277E), (0x2780, 0x2788), (0x278A, 0x2792),
  (0xA620, 0xA629), (0xA8D0, 0xA8D9), (0xA900, 0xA909), (0xA9D0, 0xA9D9),
  (0xA9F0, 0xA9F9), (0xAA50, 0xAA59), (0xABF0, 0xABF9), (0xFF10, 0xFF19),
  (0x104A0, 0x104A9), (0x10A40, 0x10A43), (0x10D30, 0x10D39), (0x10E60, 0x10E68),
  (0x11052, 0x1105A), (0x11066, 0x1106F), (0x110F0, 0x110F9), (0x11136, 0x1113F),
  (0x111D0, 0x111D9), (0x112F0, 0x112F9), (0x11450, 0x11459), (0x114D0, 0x114D9),
  (0x11650, 0x11659), (0x116C0, 0x116C9), (0x11730, 0x11739), (0x118E0, 0x118E9),
  (0x11950, 0x11959), (0x11C50, 0x11C59), (0x11D50, 0x11D59), (0x11DA0, 0x11DA9),
  (0x16A60, 0x16A69), (0x16AC0, 0x16AC9), (0x16B50, 0x16B59), (0x1D7CE, 0x1D7FF),
  (0x1E140, 0x1E149), (0x1E2F0, 0x1E2F9), (0x1E950, 0x1E959), (0x1F100, 0x1F10A),
  (0x1FBF0, 0x1FBF9)]

/-- Python `str.isdigit` on a single character. -/
def pyCharIsDigit (c : Char) : Bool :=
  pyDigitRanges.any fun r => r.1 ≤ c.toNat && c.toNat ≤ r.2

/-- Python `str.isdigit()`: nonempty and all digit characters.  This
accepts more than the decimal digits `0`-`9`: any Unicode digit
character passes, e.g. the superscript `"²"`. -/
def pyIsDigit (s : String) : Bool :=
  !s.toList.isEmpty && s.toList.all pyCharIsDigit

/-- The Unicode decimal-digit ranges (Python's `str.isdecimal`, the
digits `int(...)` accepts), per the CPython 3.11 Unicode tables.  Each
range is one run `0..9`, so a character's decimal value is its offset
from the range start. -/
def pyDecimalRanges : List (Nat × Nat) := [
  (0x30, 0x39), (0x660, 0x669), (0x6F0, 0x6F9), (0x7C0, 0x7C9),
  (0x966, 0x96F), (0x9E6, 0x9EF), (0xA66, 0xA6F), (0xAE6, 0xAEF),
  (0xB66, 0xB6F), (0xBE6, 0xBEF), (0xC66, 0xC6F), (0xCE6, 0xCEF),
  (0xD66, 0xD6F), (0xDE6, 0xDEF), (0xE50, 0xE59), (0xED0, 0xED9),
  (0xF20, 0xF29), (0x1040, 0x1049), (0x1090, 0x1099), (0x17E0, 0x17E9),
  (0x1810, 0x1819), (0x1946, 0x194F), (0x19D0, 0x19D9), (0x1A80, 0x1A89),
  (0x1A90, 0x1A99), (0x1B50, 0x1B59), (0x1BB0, 0x1BB9), (0x1C40, 0x1C49),
  (0x1C50, 0x1C59), (0xA620, 0xA629), (0xA8D0, 0xA8D9), (0xA900, 0xA909),
  (0xA9D0, 0xA9D9), (0xA9F0, 0xA9F9), (0xAA50, 0xAA59), (0xABF0, 0xABF9),
  (0xFF10, 0xFF19), (0x104A0, 0x104A9), (0x10D30, 0x10D39), (0x11066, 0x1106F),
  (0x110F0, 0x110F9), (0x11136, 0x1113F), (0x111D0, 0x111D9), (0x112F0, 0x112F9),
  (0x11450, 0x11459), (0x114D0, 0x114D9), (0x11650, 0x11659), (0x116C0, 0x116C9),
  (0x11730, 0x11739), (0x118E0, 0x118E9), (0x11950, 0x11959), (0x11C50, 0x11C59),
  (0x11D50, 0x11D59), (0x11DA0, 0x11DA9), (0x16A60, 0x16A69), (0x16AC0, 0x16AC9),
  (0x16B50, 0x16B59), (0x1D7CE, 0x1D7D7), (0x1D7D8, 0x1D7E1), (0x1D7E2, 0x1D7EB),
  (0x1D7EC, 0x1D7F5), (0x1D7F6, 0x1D7FF), (0x1E140, 0x1E149), (0x1E2F0, 0x1E2F9),
  (0x1E950, 0x1E959), (0x1FBF0, 0x1FBF9)]

/-- The decimal value of a character, when it has one. -/
def pyDecimalVal (c : Char) : Option Nat :=
  (pyDecimalRanges.find? fun r => r.1 ≤ c.toNat && c.toNat ≤ r.2).map
    fun r => c.toNat - r.1

/-- Python `int(...)` on a decimal-digit string (the id
`fetch_recipe_by_id` puts back into the returned record).  On an
`isdigit` string holding a non-decimal digit such as `"²"`, `int`
raises instead; the retry loop of `fetch_recipe_by_id` catches that on
every attempt and reports no recipe, which `addRecipe` models as
`fetchOk rid = false`, so this function's value is never reached for
such ids. -/
def pyInt (s : String) : Nat :=
  s.toList.foldl (fun n c => n * 10 + (pyDecimalVal c).getD 0) 0

/-- The distinguishable responses of the `POST /admin/add` handler. -/
inductive AddRecipeResult where
  | validationError
  | quotaExhausted
  | alreadyOwned
  | notFound
  | success
deriving DecidableEq, Repr

/-- What one `add_recipe` call leaves behind, together with how many
times `fetch_recipe_by_id` reached the network layer. -/
structure RecipeOutcome where
  result : AddRecipeResult
  state : AppState
  fetchCalls : Nat
deriving DecidableEq, Repr

/-- `add_recipe` (`app.py` lines 549-645).  `fetchOk rid` tells whether
`fetch_recipe_by_id rid` finds a Recipe structured-data block. -/
def addRecipe (st : AppState) (now : Int) (fetchOk : String → Bool)
    (recipeId : String) : RecipeOutcome :=
  let rid := pyStrip recipeId
  if ¬ pyIsDigit rid then
    ⟨.validationError, st, 0⟩
  else
    let er := ensureUserTokens st.quota now
    let st1 : AppState := ⟨some er.row, st.recipes, st.owned⟩
    if er.tokens ≤ 0 then
      ⟨.quotaExhausted, st1, 0⟩
    else if rid ∈ st.owned then
      ⟨.alreadyOwned, st1, 0⟩
    else if fetchOk rid then
      let fid := toString (pyInt rid)
      ⟨.success,
        ⟨some ⟨er.tokens - 1, er.row.lastRefillAt⟩,
          upsertRecipe st.recipes fid, addOwnership st.owned fid⟩, 1⟩
    else
      ⟨.notFound, st1, 1⟩

/-! ### Retrying fetcher (`fetch_category_ranking`, `recipe.py` lines 270-312) -/

/-- The decoded JSON body of a ranking response, as far as the retry
loop inspects it: whether it carries a top-level `error` field. -/
structure RankData where
  hasError : Bool
deriving DecidableEq, Repr

/-- One HTTP response: status code and the body (`none` when `r.json()`
raises). -/
structure RankResp where
  status : Nat
  json : Option RankData
deriving DecidableEq, Repr

/-- The transient status set retried by the fetchers
(`recipe.py` line 293). -/
def isTransientStatus (s : Nat) : Bool :=
  s == 429 || s == 500 || s == 502 || s == 503 || s == 504

/-- One attempt of the retry loop body: `none` means the attempt failed
(exception, transient status, `raise_for_status`, undecodable body, or
an `error` field) and the loop continues. -/
def attemptOutcome (r? : Option RankResp) : Option RankData :=
  match r? with
  | none => none
  | some r =>
    if isTransientStatus r.status then none
    else if 400 ≤ r.status then none
    else
      match r.json with
      | none => none
      | some d => if d.hasError then none else some d

/-- The `for attempt in range(1, max_retries + 1)` loop: returns the
payload (or `none` when retries are exhausted) and the number of
attempts actually performed.  `transport a` is the response of the
`a`-th `requests.get` (`none` when it raises). -/
def fetchLoop (transport : Nat → Option RankResp) :
    Nat → Nat → Option RankData × Nat
  | _, 0 => (none, 0)
  | attempt, remaining + 1 =>
    match attemptOutcome (transport attempt) with
    | some d => (some d, 1)
    | none =>
      let r := fetchLoop transport (attempt + 1) remaining
      (r.1, r.2 + 1)

/-- Default `max_retries` of the fetchers (`recipe.py` line 274). -/
def MAX_RETRIES : Nat := 3

/-- `fetch_category_ranking` (`recipe.py` lines 270-312), abstracting
the transport. -/
def fetchCategoryRanking (transport : Nat → Option RankResp)
    (maxRetries : Nat) : Option RankData × Nat :=
  fetchLoop transport 1 maxRetries

/-! ### Category catalog (`_flatten_categories`, `recipe.py` lines 50-134) -/

/-- A raw node of the category-list payload; ids are kept in their
`str(...)` form, absent JSON fields are `none`. -/
structure RawCat where
  categoryId : Option String
  categoryName : Option String
  parentCategoryId : Option String
deriving DecidableEq, Repr

/-- The `result` object of the category-list payload: up to three level
arrays. -/
structure CatTree where
  large : List RawCat
  medium : List RawCat
  small : List RawCat
deriving DecidableEq, Repr

/-- Python falsiness of an optional string (`not name`). -/
def strFalsy : Option String → Bool
  | none => true
  | some s => s.toList.isEmpty

/-- Lookup in the dict comprehensions `large_by_id` / `medium_by_id`
(`recipe.py` lines 61-62): keyed by `categoryId`, later entries
overwrite earlier ones, so the last match wins. -/
def dictGet (l : List RawCat) (key : String) : Option RawCat :=
  (l.filter fun c => c.categoryId == some key).getLast?

/-- A flattened catalog entry. -/
structure CatEntry where
  categoryId : String
  displayId : Option String
  name : String
  path : String
deriving DecidableEq, Repr

/-- The `large` pass (`recipe.py` lines 67-72). -/
def flattenLarge (large : List RawCat) : List CatEntry :=
  large.filterMap fun c =>
    match c.categoryId, c.categoryName with
    | some cid, some name =>
      if !pyTruthy name then none else some ⟨cid, none, name, name⟩
    | _, _ => none

/-- The `medium` pass (`recipe.py` lines 75-91): composite id
`"{largeId}-{mediumId}"`, path degrades to the bare name when the large
parent's name cannot be resolved. -/
def flattenMedium (largeById : String → Option RawCat)
    (medium : List RawCat) : List CatEntry :=
  medium.filterMap fun c =>
    match c.categoryId, c.parentCategoryId, c.categoryName with
    | some cid, some parent, some name =>
      if !pyTruthy name then none
      else
        let parentName := (largeById parent).bind (·.categoryName)
        let path :=
          if strFalsy parentName then name
          else parentName.getD "" ++ ">" ++ name
        some ⟨parent ++ "-" ++ cid, some cid, name, path⟩
    | _, _, _ => none

/-- The `small` pass (`recipe.py` lines 95-123): composite id
`"{largeId}-{mediumId}-{smallId}"`; a small whose medium parent (and
hence large grandparent) is unresolved is skipped. -/
def flattenSmall (largeById mediumById : String → Option RawCat)
    (small : List RawCat) : List CatEntry :=
  small.filterMap fun c =>
    match c.categoryId, c.parentCategoryId, c.categoryName with
    | some cid, some parent, some name =>
      if !pyTruthy name then none
      else
        let med := mediumById parent
        let medName := med.bind (·.categoryName)
        let largeParent := med.bind (·.parentCategoryId)
        let largeName :=
          match largeParent with
          | some lp => (largeById lp).bind (·.categoryName)
          | none => none
        let path :=
          if !strFalsy largeName && !strFalsy medName then
            largeName.getD "" ++ ">" ++ medName.getD "" ++ ">" ++ name
          else if !strFalsy medName then
            medName.getD "" ++ ">" ++ name
          else name
        match largeParent with
        | none => none
        | some lp => some ⟨lp ++ "-" ++ parent ++ "-" ++ cid, some cid, name, path⟩
    | _, _, _ => none

/-- The three passes in encounter order, before deduplication. -/
def preFlatten (t : CatTree) : List CatEntry :=
  flattenLarge t.large
    ++ flattenMedium (dictGet t.large) t.medium
    ++ flattenSmall (dictGet t.large) (dictGet t.medium) t.small

/-- The final dedup-by-id pass (`recipe.py` lines 127-134): keep the
first entry for each `categoryId`. -/
def dedupById : List CatEntry → List String → List CatEntry
  | [], _ => []
  | c :: rest, seen =>
    if c.categoryId ∈ seen then dedupById rest seen
    else c :: dedupById rest (c.categoryId :: seen)

/-- `_flatten_categories` (`recipe.py` lines 50-134). -/
def flattenCategories (t : CatTree) : List CatEntry :=
  dedupById (preFlatten t) []

/-! ### Category suggestion (`suggest_categories`, `recipe.py` lines 137-178) -/

/-- Does `needle` match at the head of `hay`? -/
def leadMatch : List Char → List Char → Bool
  | [], _ => true
  | _ :: _, [] => false
  | a :: as, b :: bs => a == b && leadMatch as bs

/-- Does `needle` occur contiguously anywhere in `hay`? -/
def subMatch (needle : List Char) : List Char → Bool
  | [] => leadMatch needle []
  | b :: rest => leadMatch needle (b :: rest) || subMatch needle rest

/-- Python's `needle in hay` on strings. -/
def strContains (hay needle : String) : Bool :=
  subMatch needle.toList hay.toList

/-- The separator class of `re.split` in `suggest_categories`
(`recipe.py` line 160): whitespace, ideographic space, comma,
ideographic comma, slash, middle dot. -/
def sepChars : List Char :=
  [' ', '\t', '\n', '\r', '\u000b', '\u000c', '　', ',', '、', '/', '・']

def isSepChar (c : Char) : Bool := sepChars.contains c

/-- Split on runs of separator characters, dropping empty pieces. -/
def splitTokensGo : List Char → List Char → List String
  | [], cur => if cur.isEmpty then [] else [String.mk cur.reverse]
  | c :: rest, cur =>
    if isSepChar c then
      if cur.isEmpty then splitTokensGo rest []
      else String.mk cur.reverse :: splitTokensGo rest []
    else splitTokensGo rest (c :: cur)

def splitTokens (s : String) : List String := splitTokensGo s.toList []

/-- The token list of `suggest_categories`: split, strip, lower-case,
drop empties (`recipe.py` lines 160-161). -/
def tokenize (q : String) : List String :=
  ((splitTokens q).map fun t => pyLower (pyStrip t)).filter fun t => pyTruthy t

/-- A catalog entry together with its score. -/
structure ScoredEntry where
  entry : CatEntry
  score : Nat
deriving DecidableEq, Repr

/-- The text an entry is matched against: lower-cased name and path
(`recipe.py` line 167). -/
def entryText (c : CatEntry) : String := pyLower (c.name ++ " " ++ c.path)

/-- The scoring loop body (`recipe.py` lines 168-173): +5 for a whole
lower-cased query substring hit, +2 per token hit. -/
def scoreEntry (qLow : String) (tokens : List String) (c : CatEntry) : Nat :=
  (if strContains (entryText c) qLow then 5 else 0) +
    2 * tokens.countP fun t => pyTruthy t && strContains (entryText c) t

/-- The sort key `(-score, len(path))` of `recipe.py` line 177 as the
total preorder a stable ascending sort uses. -/
def suggestOrder (a b : ScoredEntry) : Prop :=
  b.score < a.score ∨ (a.score = b.score ∧ a.entry.path.length ≤ b.entry.path.length)

instance : DecidableRel suggestOrder := fun a b => by
  unfold suggestOrder; exact inferInstance

instance : IsTotal ScoredEntry suggestOrder :=
  ⟨by intro a b; unfold suggestOrder; omega⟩

instance : IsTrans ScoredEntry suggestOrder :=
  ⟨by intro a b c; unfold suggestOrder; omega⟩

/-- `suggest_categories` (`recipe.py` lines 137-178) after the catalog
has been fetched and flattened into `cats`.  Python's `list.sort` is a
stable ascending sort by the key, modelled by `insertionSort` on
`suggestOrder`. -/
def suggestCategories (cats : List CatEntry) (query : String) (limit : Nat) :
    List ScoredEntry :=
  let q := pyStrip query
  if !pyTruthy q then []
  else
    let tokens := tokenize q
    let qLow := pyLower q
    let scored := cats.filterMap fun c =>
      let s := scoreEntry qLow tokens c
      if 0 < s then some ⟨c, s⟩ else none
    (scored.insertionSort suggestOrder).take limit

/-- The quota invariant: whenever a quota row exists for the user, its
balance lies in `[0, MAX_TOKENS]`. -/
def QuotaInRange (st : AppState) : Prop :=
  ∀ q, st.quota = some q → 0 ≤ q.tokens ∧ q.tokens ≤ MAX_TOKENS

/-- One observable operation of the system on a user's state. -/
inductive Step : AppState → AppState → Prop
  | ensure (st : AppState) (now : Int) :
      Step st ⟨some (ensureUserTokens st.quota now).row, st.recipes, st.owned⟩
  | category (st : AppState) (now : Int) (items : List (Option String)) :
      Step st (addCategory st now items).state
  | recipe (st : AppState) (now : Int) (fetchOk : String → Bool) (rid : String) :
      Step st (addRecipe st now fetchOk rid).state

/-- States reachable from a user with no quota row yet (it is created
lazily with `balance = MAX_TOKENS` on first access). -/
inductive Reach : AppState → Prop
  | init (recipes owned : List String) : Reach ⟨none, recipes, owned⟩
  | step {st st2 : AppState} : Reach st → Step st st2 → Reach st2

/-- A concrete category tree in which a medium node and a small node of
a different branch share the numeric id 5. -/
def exTreeC5 : CatTree :=
  ⟨[⟨some "1", some "L", none⟩],
    [⟨some "5", some "M", some "1"⟩, ⟨some "2", some "M2", some "1"⟩],
    [⟨some "5", some "S", some "2"⟩]⟩

/-! ## Theorems -/

/-- Taking the calendar date of an instant is monotone. -/
theorem dateOf_mono {a b : Int} (h : a ≤ b) : dateOf a ≤ dateOf b := by
  unfold dateOf minutesPerDay
  rw [Int.fdiv_eq_ediv _ (by norm_num), Int.fdiv_eq_ediv _ (by norm_num)]
  exact Int.ediv_le_ediv (by norm_num) h

/-- C2: for a stored balance in `[0, MAX_TOKENS]` whose stored boundary
is not in the future, `ensure_user_tokens` returns
`min MAX_TOKENS (balance + deltaDays * DAILY_REFILL)` where `deltaDays`
is the whole-day gap between the stored and the current boundary, and
when `deltaDays > 0` it persists that balance with the stored boundary
advanced to the current one. -/
theorem ensure_refill_formula (row : QuotaRow) (now : Int)
    (h0 : 0 ≤ row.tokens) (h1 : row.tokens ≤ MAX_TOKENS)
    (h2 : row.lastRefillAt ≤ mostRecentRefillBoundary now) :
    (ensureUserTokens (some row) now).tokens =
      min MAX_TOKENS (row.tokens +
        (dateOf (mostRecentRefillBoundary now) - dateOf row.lastRefillAt) * DAILY_REFILL) ∧
    (0 < dateOf (mostRecentRefillBoundary now) - dateOf row.lastRefillAt →
      (ensureUserTokens (some row) now).row =
        ⟨min MAX_TOKENS (row.tokens +
            (dateOf (mostRecentRefillBoundary now) - dateOf row.lastRefillAt) * DAILY_REFILL),
          mostRecentRefillBoundary now⟩ ∧
      (ensureUserTokens (some row) now).wrote = true) := by
  have hcl : ¬ (mostRecentRefillBoundary now < row.lastRefillAt) := not_lt.mpr h2
  have hd : 0 ≤ dateOf (mostRecentRefillBoundary now) - dateOf row.lastRefillAt :=
    sub_nonneg.mpr (dateOf_mono h2)
  unfold ensureUserTokens
  simp only [if_neg hcl]
  by_cases hpos : 0 < dateOf (mostRecentRefillBoundary now) - dateOf row.lastRefillAt
  · simp [if_pos hpos, hpos]
  · have hz : dateOf (mostRecentRefillBoundary now) - dateOf row.lastRefillAt = 0 :=
      le_antisymm (not_lt.mp hpos) hd
    simp [if_neg hpos, hz, min_eq_right h1, hpos]

/-- Witness for `ensure_refill_formula`: a balance of 500 last refilled
at the day-1 boundary, observed on day 3 at 05:00, refills to 1000. -/
theorem ensure_refill_formula_witness :
    (0 : Int) ≤ 500 ∧ (500 : Int) ≤ MAX_TOKENS ∧
    (1680 : Int) ≤ mostRecentRefillBoundary 4560 ∧
    (ensureUserTokens (some ⟨500, 1680⟩) 4560).tokens =
      min MAX_TOKENS (500 +
        (dateOf (mostRecentRefillBoundary 4560) - dateOf 1680) * DAILY_REFILL) :=
  ⟨by decide, by decide, by decide,
    (ensure_refill_formula ⟨500, 1680⟩ 4560 (by decide) (by decide) (by decide)).1⟩

/-- C4: `ensure_user_tokens` is idempotent inside one boundary window:
when the stored boundary already equals the current boundary, any call
whose instant maps to that same boundary returns the stored balance and
performs no write. -/
theorem ensure_idempotent_in_window (row : QuotaRow) (now now2 : Int)
    (h : row.lastRefillAt = mostRecentRefillBoundary now)
    (h2 : mostRecentRefillBoundary now2 = mostRecentRefillBoundary now) :
    ensureUserTokens (some row) now2 = ⟨row.tokens, row, false⟩ := by
  unfold ensureUserTokens
  rw [h2, ← h]
  simp [lt_irrefl]

/-- Witness for `ensure_idempotent_in_window`: a row stamped at the
day-0 boundary, re-ensured later the same day, is untouched. -/
theorem ensure_idempotent_in_window_witness :
    ensureUserTokens (some ⟨0, 240⟩) 1000 = ⟨0, ⟨0, 240⟩, false⟩ :=
  ensure_idempotent_in_window ⟨0, 240⟩ 300 1000 (by decide) (by decide)

/-- C1 (counterexample): `add_recipe` checks the quota before ownership,
so an actor who already owns recipe "123" but has balance 0 gets the
quota-exhausted response, not the claimed no-op success. -/
theorem addRecipe_owned_zero_balance_not_noop :
    ("123" : String) ∈ (AppState.mk (some ⟨0, 240⟩) [] ["123"]).owned ∧
    (addRecipe ⟨some ⟨0, 240⟩, [], ["123"]⟩ 300 (fun _ => true) "123").result =
      .quotaExhausted ∧
    (addRecipe ⟨some ⟨0, 240⟩, [], ["123"]⟩ 300 (fun _ => true) "123").result ≠
      .alreadyOwned := by
  refine ⟨by decide, by decide, by decide⟩

/-- C1 (amended): when the post-refill balance is positive, `add_recipe`
on an id the actor already owns is a no-op success: no fetch is
performed, no quota is charged, and nothing but the refill write touches
the state. -/
theorem addRecipe_owned_noop (st : AppState) (now : Int)
    (fetchOk : String → Bool) (recipeId : String)
    (hdig : pyIsDigit (pyStrip recipeId) = true)
    (hq : 0 < (ensureUserTokens st.quota now).tokens)
    (hown : pyStrip recipeId ∈ st.owned) :
    addRecipe st now fetchOk recipeId =
      ⟨.alreadyOwned, ⟨some (ensureUserTokens st.quota now).row, st.recipes, st.owned⟩, 0⟩ := by
  unfold addRecipe
  simp [hdig, not_le.mpr hq, hown]

/-- Witness for `addRecipe_owned_noop`: with balance 5 an owned "123"
is reported as already owned and nothing is charged. -/
theorem addRecipe_owned_noop_witness :
    addRecipe ⟨some ⟨5, 240⟩, [], ["123"]⟩ 300 (fun _ => true) "123" =
      ⟨.alreadyOwned, ⟨some ⟨5, 240⟩, [], ["123"]⟩, 0⟩ :=
  addRecipe_owned_noop ⟨some ⟨5, 240⟩, [], ["123"]⟩ 300 (fun _ => true) "123"
    (by decide) (by decide) (by decide)

/-- C8 (counterexample): the id `"²"` consists of a character that is
not a decimal digit, yet `add_recipe` does not reject it: Python's
`str.isdigit` accepts superscript two, so validation passes and the
handler reaches `fetch_recipe_by_id` — one network call — instead of
returning the claimed validation error with zero fetches. -/
theorem addRecipe_superscript_not_rejected :
    ('²'.isDigit = false) ∧
    pyIsDigit (pyStrip "²") = true ∧
    (addRecipe ⟨some ⟨5, 240⟩, [], []⟩ 300 (fun _ => false) "²").result ≠
      .validationError ∧
    (addRecipe ⟨some ⟨5, 240⟩, [], []⟩ 300 (fun _ => false) "²").fetchCalls = 1 :=
  ⟨by decide, by decide, by decide, by decide⟩

/-- C8 (amended): a submitted id whose stripped form fails Python's
`str.isdigit` test is rejected by `add_recipe` as a validation error
with no fetch call and no state change.  Ids made only of non-decimal
Unicode digit characters (such as `"²"`) pass this validation and do
reach the fetch layer. -/
theorem addRecipe_nondigit_rejected (st : AppState) (now : Int)
    (fetchOk : String → Bool) (recipeId : String)
    (h : pyIsDigit (pyStrip recipeId) = false) :
    addRecipe st now fetchOk recipeId = ⟨.validationError, st, 0⟩ := by
  unfold addRecipe
  simp [h]

/-- Witness for `addRecipe_nondigit_rejected`: `IngestById "abc"`. -/
theorem addRecipe_nondigit_rejected_witness :
    addRecipe ⟨some ⟨5, 240⟩, [], []⟩ 300 (fun _ => true) "abc" =
      ⟨.validationError, ⟨some ⟨5, 240⟩, [], []⟩, 0⟩ :=
  addRecipe_nondigit_rejected ⟨some ⟨5, 240⟩, [], []⟩ 300 (fun _ => true) "abc"
    (by decide)

/-- When every attempt fails, the retry loop runs through all remaining
attempts and returns no payload. -/
theorem fetchLoop_all_failed (transport : Nat → Option RankResp)
    (h : ∀ a, attemptOutcome (transport a) = none) :
    ∀ remaining attempt, fetchLoop transport attempt remaining = (none, remaining) := by
  intro remaining
  induction remaining with
  | zero => intro attempt; rfl
  | succ n ih => intro attempt; simp [fetchLoop, h attempt, ih (attempt + 1)]

/-- C7: against a transport answering HTTP 503 on every call,
`fetch_category_ranking` performs exactly `maxRetries` attempts and then
returns the terminal error value `none` instead of raising. -/
theorem fetch_always_503_exhausts_retries (transport : Nat → Option RankResp)
    (maxRetries : Nat)
    (h : ∀ a, ∃ r, transport a = some r ∧ r.status = 503) :
    fetchCategoryRanking transport maxRetries = (none, maxRetries) := by
  have hfail : ∀ a, attemptOutcome (transport a) = none := by
    intro a
    obtain ⟨r, hr, hs⟩ := h a
    simp [attemptOutcome, hr, isTransientStatus, hs]
  exact fetchLoop_all_failed transport hfail maxRetries 1

/-- Witness for `fetch_always_503_exhausts_retries`: the default
`max_retries = 3` against a constant-503 transport makes 3 attempts. -/
theorem fetch_always_503_exhausts_retries_witness :
    fetchCategoryRanking (fun _ => some ⟨503, none⟩) MAX_RETRIES =
      (none, MAX_RETRIES) :=
  fetch_always_503_exhausts_retries (fun _ => some ⟨503, none⟩) MAX_RETRIES
    (fun _ => ⟨⟨503, none⟩, rfl, rfl⟩)

/-- Dropping an absent-id item from the loop input changes nothing. -/
theorem addCategoryGo_drop_none (ownedIds : List String)
    (l1 l2 : List (Option String)) :
    ∀ tokens recipes owned added skipped,
      addCategoryGo ownedIds (l1 ++ none :: l2) tokens recipes owned added skipped =
        addCategoryGo ownedIds (l1 ++ l2) tokens recipes owned added skipped := by
  induction l1 with
  | nil => intro tokens recipes owned added skipped; simp [addCategoryGo]
  | cons x l1 ih =>
    intro tokens recipes owned added skipped
    match x with
    | none => simp only [List.cons_append, addCategoryGo]; exact ih ..
    | some rid =>
      simp only [List.cons_append, addCategoryGo]
      by_cases hmem : rid ∈ ownedIds
      · simp only [if_pos hmem]; exact ih ..
      · by_cases htok : tokens ≤ 0
        · simp [if_neg hmem, if_pos htok]
        · simp only [if_neg hmem, if_neg htok]; exact ih ..

/-- Membership after an `INSERT OR REPLACE` upsert. -/
theorem mem_upsertRecipe {l : List String} {rid x : String} :
    x ∈ upsertRecipe l rid ↔ x ∈ l ∨ x = rid := by
  unfold upsertRecipe
  split
  next h =>
    constructor
    · exact Or.inl
    · rintro (hx | rfl)
      · exact hx
      · exact h
  next h => simp [List.mem_append]

/-- Membership after an `INSERT OR IGNORE` ownership insert. -/
theorem mem_addOwnership {l : List String} {rid x : String} :
    x ∈ addOwnership l rid ↔ x ∈ l ∨ x = rid := by
  unfold addOwnership
  split
  next h =>
    constructor
    · exact Or.inl
    · rintro (hx | rfl)
      · exact hx
      · exact h
  next h => simp [List.mem_append]

/-- C3: with a post-refill balance of 3 and a payload of 5 distinct new
items, `add_category` adds the first 3, skips none, persists a final
balance of 0, and leaves the remaining 2 items unstored and unowned. -/
theorem addCategory_balance3_five_new (st : AppState) (now : Int)
    (a b c d e : String)
    (hens : (ensureUserTokens st.quota now).tokens = 3)
    (hnd : [a, b, c, d, e].Nodup)
    (hown : ∀ x ∈ [a, b, c, d, e], x ∉ st.owned)
    (hdr : d ∉ st.recipes) (her : e ∉ st.recipes) :
    (addCategory st now [some a, some b, some c, some d, some e]).added = 3 ∧
    (addCategory st now [some a, some b, some c, some d, some e]).skipped = 0 ∧
    (addCategory st now [some a, some b, some c, some d, some e]).state.quota =
      some ⟨0, (ensureUserTokens st.quota now).row.lastRefillAt⟩ ∧
    d ∉ (addCategory st now [some a, some b, some c, some d, some e]).state.recipes ∧
    e ∉ (addCategory st now [some a, some b, some c, some d, some e]).state.recipes ∧
    d ∉ (addCategory st now [some a, some b, some c, some d, some e]).state.owned ∧
    e ∉ (addCategory st now [some a, some b, some c, some d, some e]).state.owned := by
  have ha : a ∉ st.owned := hown a (by simp)
  have hb : b ∉ st.owned := hown b (by simp)
  have hc : c ∉ st.owned := hown c (by simp)
  have hdo : d ∉ st.owned := hown d (by simp)
  have heo : e ∉ st.owned := hown e (by simp)
  simp only [List.nodup_cons, List.mem_cons, List.not_mem_nil, or_false, not_or,
    List.nodup_nil, and_true] at hnd
  obtain ⟨⟨hab, hac, had, hae⟩, ⟨hbc, hbd, hbe⟩, ⟨hcd, hce⟩, hde⟩ := hnd
  have hloop : addCategoryGo st.owned [some a, some b, some c, some d, some e]
      3 st.recipes st.owned 0 0 =
      ⟨3, 0, 0, upsertRecipe (upsertRecipe (upsertRecipe st.recipes a) b) c,
        addOwnership (addOwnership (addOwnership st.owned a) b) c⟩ := by
    simp [addCategoryGo, ha, hb, hc, hdo]
  unfold addCategory
  simp only [hens, hloop]
  simp [mem_upsertRecipe, mem_addOwnership, not_or, hdr, her, hdo, heo,
    Ne.symm had, Ne.symm hbd, Ne.symm hcd, Ne.symm hae, Ne.symm hbe, Ne.symm hce]

/-- Witness for `addCategory_balance3_five_new`: balance 3 against the
fresh payload ids "1".."5". -/
theorem addCategory_balance3_five_new_witness :
    (addCategory ⟨some ⟨3, 240⟩, [], []⟩ 300
        [some "1", some "2", some "3", some "4", some "5"]).added = 3 ∧
    (addCategory ⟨some ⟨3, 240⟩, [], []⟩ 300
        [some "1", some "2", some "3", some "4", some "5"]).skipped = 0 ∧
    (addCategory ⟨some ⟨3, 240⟩, [], []⟩ 300
        [some "1", some "2", some "3", some "4", some "5"]).state.quota =
      some ⟨0, (ensureUserTokens (some ⟨3, 240⟩) 300).row.lastRefillAt⟩ ∧
    "4" ∉ (addCategory ⟨some ⟨3, 240⟩, [], []⟩ 300
        [some "1", some "2", some "3", some "4", some "5"]).state.recipes ∧
    "5" ∉ (addCategory ⟨some ⟨3, 240⟩, [], []⟩ 300
        [some "1", some "2", some "3", some "4", some "5"]).state.recipes ∧
    "4" ∉ (addCategory ⟨some ⟨3, 240⟩, [], []⟩ 300
        [some "1", some "2", some "3", some "4", some "5"]).state.owned ∧
    "5" ∉ (addCategory ⟨some ⟨3, 240⟩, [], []⟩ 300
        [some "1", some "2", some "3", some "4", some "5"]).state.owned :=
  addCategory_balance3_five_new ⟨some ⟨3, 240⟩, [], []⟩ 300 "1" "2" "3" "4" "5"
    (by decide) (by decide) (by decide) (by decide) (by decide)

/-- `ensure_user_tokens` always returns the balance it leaves stored. -/
theorem ensure_row_tokens (row? : Option QuotaRow) (now : Int) :
    (ensureUserTokens row? now).row.tokens = (ensureUserTokens row? now).tokens := by
  unfold ensureUserTokens
  cases row? with
  | none => rfl
  | some row =>
    dsimp only
    split <;> split <;> rfl

/-- On an existing row, `ensure_user_tokens` either returns the stored
balance unchanged or applies a capped refill for a nonnegative number of
days. -/
theorem ensure_tokens_cases (row : QuotaRow) (now : Int) :
    (ensureUserTokens (some row) now).tokens = row.tokens ∨
    ∃ delta : Int, 0 ≤ delta ∧
      (ensureUserTokens (some row) now).tokens =
        min MAX_TOKENS (row.tokens + delta * DAILY_REFILL) := by
  unfold ensureUserTokens
  dsimp only
  split
  · split
    next hpos => exact Or.inr ⟨_, le_of_lt hpos, rfl⟩
    next => exact Or.inl rfl
  · split
    next hpos => exact Or.inr ⟨_, le_of_lt hpos, rfl⟩
    next => exact Or.inl rfl

/-- The refill computation keeps the balance inside `[0, MAX_TOKENS]`. -/
theorem ensure_tokens_bounds (row? : Option QuotaRow) (now : Int)
    (h : ∀ q, row? = some q → 0 ≤ q.tokens ∧ q.tokens ≤ MAX_TOKENS) :
    0 ≤ (ensureUserTokens row? now).tokens ∧
    (ensureUserTokens row? now).tokens ≤ MAX_TOKENS := by
  cases row? with
  | none => exact ⟨by norm_num [ensureUserTokens, MAX_TOKENS],
      by norm_num [ensureUserTokens]⟩
  | some row =>
    obtain ⟨h0, h1⟩ := h row rfl
    rcases ensure_tokens_cases row now with hc | ⟨delta, hd, hc⟩
    · rw [hc]; exact ⟨h0, h1⟩
    · rw [hc]
      refine ⟨le_min (by norm_num [MAX_TOKENS]) ?_, min_le_left _ _⟩
      have hmul : 0 ≤ delta * DAILY_REFILL :=
        mul_nonneg hd (by norm_num [DAILY_REFILL])
      linarith

/-- The `add_category` loop only ever decrements a positive balance, so
the final balance stays in `[0, initial]`. -/
theorem addCategoryGo_tokens_bounds (ownedIds : List String) :
    ∀ (items : List (Option String)) (tokens : Int) (recipes owned : List String)
      (added skipped : Nat), 0 ≤ tokens →
      0 ≤ (addCategoryGo ownedIds items tokens recipes owned added skipped).tokens ∧
      (addCategoryGo ownedIds items tokens recipes owned added skipped).tokens ≤ tokens := by
  intro items
  induction items with
  | nil => intro tokens recipes owned added skipped h; exact ⟨h, le_refl _⟩
  | cons item rest ih =>
    intro tokens recipes owned added skipped h
    match item with
    | none => exact ih tokens recipes owned added skipped h
    | some rid =>
      simp only [addCategoryGo]
      by_cases hmem : rid ∈ ownedIds
      · simp only [if_pos hmem]
        exact ih tokens recipes owned added (skipped + 1) h
      · by_cases htok : tokens ≤ 0
        · simp only [if_neg hmem, if_pos htok]
          exact ⟨h, le_refl _⟩
        · simp only [if_neg hmem, if_neg htok]
          have h1 : 0 ≤ tokens - 1 := by omega
          obtain ⟨hl, hr⟩ := ih (tokens - 1) (upsertRecipe recipes rid)
            (addOwnership owned rid) (added + 1) skipped h1
          exact ⟨hl, by omega⟩

/-- Every operation preserves the quota invariant. -/
theorem step_preserves_quotaInRange {st st2 : AppState} (hstep : Step st st2)
    (hinv : QuotaInRange st) : QuotaInRange st2 := by
  cases hstep with
  | ensure now =>
    intro q hq
    cases hq
    rw [ensure_row_tokens]
    exact ensure_tokens_bounds st.quota now hinv
  | category now items =>
    intro q hq
    unfold addCategory at hq
    simp only at hq
    cases hq
    obtain ⟨he0, he1⟩ := ensure_tokens_bounds st.quota now hinv
    obtain ⟨hl0, hl1⟩ := addCategoryGo_tokens_bounds st.owned items
      (ensureUserTokens st.quota now).tokens st.recipes st.owned 0 0 he0
    exact ⟨hl0, le_trans hl1 he1⟩
  | recipe now fetchOk rid =>
    intro q hq
    unfold addRecipe at hq
    simp only at hq
    obtain ⟨he0, he1⟩ := ensure_tokens_bounds st.quota now hinv
    split at hq
    · exact hinv q hq
    · split at hq
      · cases hq
        rw [ensure_row_tokens]
        exact ⟨he0, he1⟩
      · split at hq
        · cases hq
          rw [ensure_row_tokens]
          exact ⟨he0, he1⟩
        · split at hq
          · cases hq
            next htok _ =>
              constructor
              · simp only
                omega
              · simp only
                omega
          · cases hq
            rw [ensure_row_tokens]
            exact ⟨he0, he1⟩

/-- C9: in every state reachable from lazy quota creation under
`ensure_user_tokens`, `add_category` and `add_recipe`, the stored
balance satisfies `0 ≤ balance ≤ MAX_TOKENS`. -/
theorem reach_quotaInRange (st : AppState) (h : Reach st) : QuotaInRange st := by
  induction h with
  | init recipes owned => intro q hq; exact Option.noConfusion hq
  | step hr hs ih => exact step_preserves_quotaInRange hs ih

/-- Witness for `reach_quotaInRange`: the state after a category
ingestion performed on a fresh user. -/
theorem reach_quotaInRange_witness :
    QuotaInRange (addCategory ⟨none, [], []⟩ 300 [some "9"]).state :=
  reach_quotaInRange _
    (Reach.step (Reach.init [] []) (Step.category ⟨none, [], []⟩ 300 [some "9"]))

/-- C10: a ranking payload item whose `recipeId` is absent is silently
dropped by `add_category`: the call behaves exactly as if the item were
not in the payload, so it is not stored, not owned, consumes no quota,
and is counted in neither `added` nor `skipped`. -/
theorem addCategory_drop_none (st : AppState) (now : Int)
    (l1 l2 : List (Option String)) :
    addCategory st now (l1 ++ none :: l2) = addCategory st now (l1 ++ l2) := by
  unfold addCategory
  simp only [addCategoryGo_drop_none]

/-- An entry surviving the dedup pass has an id outside `seen`. -/
theorem dedupById_not_seen {l : List CatEntry} {seen : List String} {e : CatEntry}
    (h : e ∈ dedupById l seen) : e.categoryId ∉ seen := by
  induction l generalizing seen with
  | nil => simp [dedupById] at h
  | cons c rest ih =>
    unfold dedupById at h
    by_cases hc : c.categoryId ∈ seen
    · rw [if_pos hc] at h
      exact ih h
    · rw [if_neg hc] at h
      rcases List.mem_cons.mp h with rfl | h2
      · exact hc
      · intro hs
        exact ih h2 (List.mem_cons_of_mem _ hs)

/-- The dedup pass emits pairwise-distinct ids. -/
theorem dedupById_nodup (l : List CatEntry) (seen : List String) :
    ((dedupById l seen).map (·.categoryId)).Nodup := by
  induction l generalizing seen with
  | nil => simp [dedupById]
  | cons c rest ih =>
    unfold dedupById
    split
    · exact ih seen
    · next hc =>
      simp only [List.map_cons, List.nodup_cons]
      refine ⟨?_, ih _⟩
      intro hmem
      obtain ⟨e, he, heq⟩ := List.mem_map.mp hmem
      exact dedupById_not_seen he (heq ▸ List.mem_cons_self _ _)

/-- The dedup pass preserves the encounter order of what it keeps. -/
theorem dedupById_sublist (l : List CatEntry) :
    ∀ seen, List.Sublist (dedupById l seen) l := by
  induction l with
  | nil => intro seen; simp [dedupById]
  | cons c rest ih =>
    intro seen
    unfold dedupById
    split
    · exact (ih seen).trans (List.sublist_cons_self c rest)
    · exact (ih _).cons₂ c

/-- Each kept entry is the first entry of the input with its id. -/
theorem dedupById_first {l : List CatEntry} {seen : List String} {e : CatEntry}
    (h : e ∈ dedupById l seen) :
    l.find? (fun c => c.categoryId == e.categoryId) = some e := by
  induction l generalizing seen with
  | nil => simp [dedupById] at h
  | cons c rest ih =>
    unfold dedupById at h
    by_cases hc : c.categoryId ∈ seen
    · rw [if_pos hc] at h
      have hne : (c.categoryId == e.categoryId) = false := by
        refine beq_eq_false_iff_ne.mpr ?_
        intro heq
        exact dedupById_not_seen h (heq ▸ hc)
      simp only [List.find?, hne]
      exact ih h
    · rw [if_neg hc] at h
      rcases List.mem_cons.mp h with rfl | h2
      · simp [List.find?]
      · have hnotin := dedupById_not_seen h2
        have hne : (c.categoryId == e.categoryId) = false := by
          refine beq_eq_false_iff_ne.mpr ?_
          intro heq
          exact hnotin (heq ▸ List.mem_cons_self _ _)
        simp only [List.find?, hne]
        exact ih h2

/-- C5: `_flatten_categories` never emits two entries with the same
composite id; the output is a subsequence of the pre-dedup encounter
order (large, then medium, then small) in which each id is represented
by its first occurrence; and on a tree where a medium and a small node
of different branches share numeric id 5 the composite ids `"1-5"` and
`"1-2-5"` are distinct output entries. -/
theorem flatten_nodup_first_wins (t : CatTree) :
    ((flattenCategories t).map (·.categoryId)).Nodup ∧
    List.Sublist (flattenCategories t) (preFlatten t) ∧
    (∀ e ∈ flattenCategories t,
      (preFlatten t).find? (fun c => c.categoryId == e.categoryId) = some e) ∧
    (flattenCategories exTreeC5).map (·.categoryId) = ["1", "1-5", "1-2", "1-2-5"] :=
  ⟨dedupById_nodup _ _, dedupById_sublist _ _, fun _ he => dedupById_first he,
    by decide⟩

/-- Witness for `flatten_nodup_first_wins`: the small entry of
`exTreeC5` is found at its first pre-dedup occurrence. -/
theorem flatten_nodup_first_wins_witness :
    (preFlatten exTreeC5).find? (fun c => c.categoryId == ("1-2-5" : String)) =
      some ⟨"1-2-5", some "5", "S", "L>M2>S"⟩ :=
  (flatten_nodup_first_wins exTreeC5).2.2.1 ⟨"1-2-5", some "5", "S", "L>M2>S"⟩
    (by decide)

/-- A positive score requires the whole query or some token to occur in
the entry text. -/
theorem scoreEntry_pos {qLow : String} {tokens : List String} {c : CatEntry}
    (h : 0 < scoreEntry qLow tokens c) :
    strContains (entryText c) qLow = true ∨
      ∃ t ∈ tokens, strContains (entryText c) t = true := by
  unfold scoreEntry at h
  by_cases h1 : strContains (entryText c) qLow = true
  · exact Or.inl h1
  · right
    rw [if_neg h1, zero_add] at h
    have hcount : 0 < tokens.countP fun t => pyTruthy t && strContains (entryText c) t := by
      omega
    obtain ⟨t, ht, hp⟩ := List.countP_pos_iff.mp hcount
    have hp2 := (Bool.and_eq_true _ _).mp hp
    exact ⟨t, ht, hp2.2⟩

/-- C6: every entry `suggest_categories` returns has a positive score
witnessed by a substring hit of the query or one of its tokens, the
scores are monotonically non-increasing, entries with equal scores are
ordered by ascending path length, and at most `limit` entries are
returned. -/
theorem suggest_scored_sorted_bounded (cats : List CatEntry) (query : String)
    (limit : Nat) :
    (suggestCategories cats query limit).length ≤ limit ∧
    (∀ e ∈ suggestCategories cats query limit,
      0 < e.score ∧
      (strContains (entryText e.entry) (pyLower (pyStrip query)) = true ∨
        ∃ t ∈ tokenize (pyStrip query), strContains (entryText e.entry) t = true)) ∧
    (suggestCategories cats query limit).Pairwise (fun a b => b.score ≤ a.score) ∧
    (suggestCategories cats query limit).Pairwise
      (fun a b => a.score = b.score → a.entry.path.length ≤ b.entry.path.length) := by
  unfold suggestCategories
  dsimp only
  split
  · exact ⟨by simp, by simp, by simp, by simp⟩
  · next hq =>
    have hsorted : List.Pairwise suggestOrder
        ((cats.filterMap fun c =>
          let s := scoreEntry (pyLower (pyStrip query)) (tokenize (pyStrip query)) c
          if 0 < s then some ⟨c, s⟩ else none).insertionSort suggestOrder) :=
      List.sorted_insertionSort suggestOrder _
    have htake : List.Pairwise suggestOrder
        (((cats.filterMap fun c =>
          let s := scoreEntry (pyLower (pyStrip query)) (tokenize (pyStrip query)) c
          if 0 < s then some ⟨c, s⟩ else none).insertionSort suggestOrder).take limit) :=
      hsorted.sublist (List.take_sublist _ _)
    refine ⟨List.length_take_le _ _, ?_, ?_, ?_⟩
    · intro e he
      have hmem : e ∈ (cats.filterMap fun c =>
          let s := scoreEntry (pyLower (pyStrip query)) (tokenize (pyStrip query)) c
          if 0 < s then some ⟨c, s⟩ else none) := by
        have := List.mem_of_mem_take he
        exact (List.mem_insertionSort suggestOrder).mp this
      obtain ⟨a, ha, hfa⟩ := List.mem_filterMap.mp hmem
      dsimp only at hfa
      split at hfa
      · next hpos =>
        cases hfa
        exact ⟨hpos, scoreEntry_pos hpos⟩
      · exact absurd hfa (by simp)
    · exact htake.imp fun {a b} hab => by
        rcases hab with h | ⟨h1, _⟩
        · exact le_of_lt h
        · exact le_of_eq h1.symm
    · exact htake.imp fun {a b} hab => by
        intro heq
        rcases hab with h | ⟨_, h2⟩
        · omega
        · exact h2

/-- Witness for `suggest_scored_sorted_bounded`: the single returned
entry for query "curry" carries a positive score with a substring hit. -/
theorem suggest_scored_sorted_bounded_witness :
    0 < (⟨⟨"30", none, "Curry", "Curry"⟩, 7⟩ : ScoredEntry).score ∧
    (strContains (entryText (⟨⟨"30", none, "Curry", "Curry"⟩, 7⟩ : ScoredEntry).entry)
        (pyLower (pyStrip "curry")) = true ∨
      ∃ t ∈ tokenize (pyStrip "curry"),
        strContains (entryText (⟨⟨"30", none, "Curry", "Curry"⟩, 7⟩ : ScoredEntry).entry)
          t = true) :=
  (suggest_scored_sorted_bounded [⟨"30", none, "Curry", "Curry"⟩] "curry" 5).2.1
    ⟨⟨"30", none, "Curry", "Curry"⟩, 7⟩ (by decide)

end RecipeApp
